import Mathlib

/-!
# Formal model of the selprotopy binary-frame codec

A shallow embedding, in Lean 4, of the parts of the `selprotopy` library that
its specification makes claims about:

* `selprotopy/common.py` — checksum, bit decomposition, IEEE-754 single
  decoding, the retry decorator;
* `selprotopy/commands.py` — event-record requests and Fast-Operate command
  assembly;
* `selprotopy/protocol/parser/__init__.py` — frame validation/extraction, the
  relay-definition, relay-ID and fast-meter block decoders.

Byte strings are modelled as `List Nat` (each element a byte value), Python
exceptions as an explicit `PyErr` error type threaded through `Except`, and
Python numbers as exact rationals (`PyQ`, an unreduced fraction kept
gcd-free so that every definition evaluates by kernel reduction).
Python's negative-index and clamping slice semantics are modelled by
`pyIndex` and `pySlice`.
-/

/-- Python exception constructors that the embedded code can raise.  Each
constructor stands for the Python exception of the same name;
`nonFiniteFloat` marks IEEE-754 special values (exponent 255: infinities and
NaN), which fall outside the rational value model used here and occur in none
of the frames considered. -/
inductive PyErr where
  | indexError
  | keyError
  | typeError
  | nameError
  | attributeError
  | structError
  | valueError (msg : String)
  | malformedByteArray
  | checksumFail
  | missingA5Head
  | dnaDigitalsMisMatch
  | invalidCommandType
  | invalidControlType
  | autoConfigurationFailure
  | nonFiniteFloat
  deriving DecidableEq, Repr

instance {ε α : Type} [DecidableEq ε] [DecidableEq α] : DecidableEq (Except ε α) := fun
  | .ok a, .ok b =>
    if h : a = b then .isTrue (by rw [h]) else .isFalse (fun c => h (Except.ok.inj c))
  | .error e, .error f =>
    if h : e = f then .isTrue (by rw [h]) else .isFalse (fun c => h (Except.error.inj c))
  | .ok _, .error _ => .isFalse (fun c => Except.noConfusion c)
  | .error _, .ok _ => .isFalse (fun c => Except.noConfusion c)

/-- Python sequence indexing `xs[i]`: a negative index counts from the end;
an index outside the sequence raises `IndexError`. -/
def pyIndex {α : Type} (xs : List α) (i : Int) : Except PyErr α :=
  let j := if i < 0 then i + xs.length else i
  if 0 ≤ j then
    match xs.get? j.toNat with
    | some v => .ok v
    | none => .error .indexError
  else .error .indexError

/-- Python slicing `xs[start:stop]`: negative bounds count from the end and
both bounds are clamped to the sequence; slicing never raises. -/
def pySlice {α : Type} (xs : List α) (start stop : Int) : List α :=
  let n : Int := xs.length
  let s := if start < 0 then max (start + n) 0 else min start n
  let e := if stop < 0 then max (stop + n) 0 else min stop n
  (xs.take e.toNat).drop s.toNat

/-- `int.from_bytes(bs, 'big')` for unsigned interpretation. -/
def int_from_bytes_be (bs : List Nat) : Nat :=
  bs.foldl (fun a b => a * 256 + b) 0

/-- `int.from_bytes(bs, 'big', signed=True)`: two's-complement sign taken
from the leading byte; the empty byte string decodes to 0. -/
def int_from_bytes_be_signed (bs : List Nat) : Int :=
  let u := int_from_bytes_be bs
  if bs ≠ [] ∧ 2 * u ≥ 256 ^ bs.length then (u : Int) - (256 ^ bs.length : Nat)
  else u

/-- Value of one hexadecimal digit, if the character is one. -/
def hexDigitVal (c : Char) : Option Nat :=
  if '0' ≤ c ∧ c ≤ '9' then some (c.toNat - '0'.toNat)
  else if 'a' ≤ c ∧ c ≤ 'f' then some (c.toNat - 'a'.toNat + 10)
  else if 'A' ≤ c ∧ c ≤ 'F' then some (c.toNat - 'A'.toNat + 10)
  else none

def hexPairs : List Char → Option (List Nat)
  | [] => some []
  | [_] => none
  | c1 :: c2 :: rest =>
    match hexDigitVal c1, hexDigitVal c2, hexPairs rest with
    | some d1, some d2, some bs => some ((16 * d1 + d2) :: bs)
    | _, _, _ => none

/-- `bytes.fromhex` on whitespace-free input (the checksum fields fed to it
are captured by `\w*` runs, which never contain whitespace): pairs of hex
digits, `none` modelling the `ValueError` on odd length or a non-hex
character. -/
def bytes_fromhex (s : String) : Option (List Nat) :=
  hexPairs s.data

/-- ASCII lower-casing, as `str.lower()` acts on the ASCII command and
control-type strings used by the library. -/
def charLower (c : Char) : Char :=
  if 'A' ≤ c && c ≤ 'Z' then Char.ofNat (c.toNat + 32) else c

def strLower (s : String) : String :=
  String.mk (s.data.map charLower)

/-- Little-endian bit list of a natural number (`fuel` bounds the recursion
and is always passed the number itself, which suffices since `n < 2 ^ n`). -/
def bitsLEAux : Nat → Nat → List Bool
  | 0, _ => []
  | fuel + 1, n => if n = 0 then [] else decide (n % 2 = 1) :: bitsLEAux fuel (n / 2)

def padFalseTo (n : Nat) (l : List Bool) : List Bool :=
  l ++ List.replicate (n - l.length) false

/-- `common.int_to_bool_list`: `format(number, '04b')` renders at least four
binary digits, and reversing that digit string gives the
least-significant-bit-first boolean list; `byte_like` pads (with `False`, on
the most-significant side) to a multiple of eight, and `reverse` flips the
result to most-significant-bit first. -/
def int_to_bool_list (number : Nat) (byte_like : Bool := false)
    (reverse : Bool := false) : List Bool :=
  let bin_list := padFalseTo 4 (bitsLEAux number number)
  let bin_list :=
    if byte_like && !(bin_list.length % 8 = 0) then
      padFalseTo ((bin_list.length / 8 + 1) * 8) bin_list
    else bin_list
  if reverse then bin_list.reverse else bin_list

/-- `common.eval_checksum` on a byte string: the plain sum of byte values,
constrained to eight bits (`& 0xff`, i.e. `% 256`) when requested. -/
def eval_checksum (data : List Nat) (constrain : Bool := false) : Nat :=
  if constrain then data.sum % 256 else data.sum

/-- `common.eval_checksum` on a `str`: the sum of character ordinals. -/
def eval_checksum_str (s : String) (constrain : Bool := false) : Nat :=
  if constrain then (s.data.map Char.toNat).sum % 256 else (s.data.map Char.toNat).sum

/-- Exact rational, kept as an unreduced fraction (`den` is positive for
every value built below) so that arithmetic and comparisons reduce in the
kernel.  Models both Python `int` (denominator 1) and the exact value of a
Python `float`. -/
structure PyQ where
  num : Int
  den : Int
  deriving DecidableEq, Repr

def PyQ.ofInt (n : Int) : PyQ := ⟨n, 1⟩

def PyQ.add (a b : PyQ) : PyQ := ⟨a.num * b.den + b.num * a.den, a.den * b.den⟩

def PyQ.mul (a b : PyQ) : PyQ := ⟨a.num * b.num, a.den * b.den⟩

/-- Strict order on fractions with positive denominators. -/
def PyQ.blt (a b : PyQ) : Bool := a.num * b.den < b.num * a.den

/-- The exact value of the Python `float` literal `1e-8`: the IEEE-754
double nearest 10⁻⁸, namely 3022314549036573 · 2⁻⁷⁸. -/
def PY_FLOAT_1E8 : PyQ := ⟨3022314549036573, 302231454903657293676544⟩

/-- Floor of a fraction with positive denominator. -/
def PyQ.floorInt (a : PyQ) : Int := Int.fdiv a.num a.den

/-- Fuel-bounded base-10 logarithm; fuel 200 covers every value below
10²⁰⁰, far beyond the magnitudes reachable from 4-byte floats scaled by
10⁶⁰. -/
def natLog10Aux : Nat → Nat → Nat
  | 0, _ => 0
  | fuel + 1, n => if n < 10 then 0 else natLog10Aux fuel (n / 10) + 1

def natLog10 (n : Nat) : Nat := natLog10Aux 200 n

/-- `math.floor(math.log10 x)` for a positive rational: computed through
`⌊x·10⁶⁰⌋`, exact for every positive value of a 4-byte float (whose minimum
subnormal is ≈1.4·10⁻⁴⁵ > 10⁻⁶⁰). -/
def pyqLog10Floor (x : PyQ) : Int :=
  (natLog10 (Int.toNat (PyQ.floorInt ⟨x.num * 10 ^ 60, x.den⟩)) : Int) - 60

/-- `magnitude(x)` from `common.ieee4bytefps`:
`0 if x == 0 else int(math.floor(math.log10(abs(x)))) + 1`. -/
def pyMagnitude (x : PyQ) : Int :=
  if x.num = 0 then 0 else pyqLog10Floor ⟨(x.num.natAbs : Int), x.den⟩ + 1

/-- Python `round(x, ndigits)`: round-half-to-even at `ndigits` decimal
places (idealised to exact rational arithmetic). -/
def pyRound (x : PyQ) (ndigits : Int) : PyQ :=
  let scaled : PyQ :=
    if 0 ≤ ndigits then ⟨x.num * 10 ^ ndigits.toNat, x.den⟩
    else ⟨x.num, x.den * 10 ^ (-ndigits).toNat⟩
  let f := scaled.floorInt
  let r := scaled.num - f * scaled.den
  let rounded :=
    if 2 * r < scaled.den then f
    else if 2 * r > scaled.den then f + 1
    else if f % 2 = 0 then f else f + 1
  if 0 ≤ ndigits then ⟨rounded, 10 ^ ndigits.toNat⟩
  else ⟨rounded * 10 ^ (-ndigits).toNat, 1⟩

/-- `round_total_digits` from `common.ieee4bytefps`:
`round(x, digits - magnitude(x))`. -/
def round_total_digits (x : PyQ) (digits : Int := 7) : PyQ :=
  pyRound x (digits - pyMagnitude x)

/-- `common.ieee4bytefps` (imported by the block decoders as
`ieee_4_byte_fps`): `struct.unpack('>f', bs)` — which demands exactly four
bytes — decoded exactly into a rational, then rounded to seven significant
digits.  Exponent 255 (infinities, NaN) is flagged `nonFiniteFloat`, the
boundary of the rational model. -/
def ieee4bytefps (binary_bytes : List Nat) (total_digits : Int := 7) :
    Except PyErr PyQ :=
  if binary_bytes.length ≠ 4 then .error .structError
  else
    let bits : Nat := int_from_bytes_be binary_bytes
    let s : Nat := bits / 2 ^ 31
    let e : Nat := bits / 2 ^ 23 % 256
    let m : Nat := bits % 2 ^ 23
    if e = 255 then .error .nonFiniteFloat
    else
      let mag : PyQ :=
        if e = 0 then ⟨(m : Int), 2 ^ 149⟩
        else ⟨((2 ^ 23 + m : Nat) : Int) * (2 : Int) ^ e, 2 ^ 150⟩
      let value : PyQ := if s = 1 then ⟨-mag.num, mag.den⟩ else mag
      .ok (round_total_digits value total_digits)

/-- One attempt outcome of a method wrapped by `common.__retry__`, indexed
by how many calls were made before it. -/
structure RetrySt where
  callIdx : Nat
  cnt : Nat
  deriving DecidableEq, Repr

/-- The loop condition `(cnt < attempts) or (attempts == 0)` of
`common.__retry__`. -/
def retryCond (attempts : Int) (st : RetrySt) : Bool :=
  (st.cnt : Int) < attempts || attempts = 0

/-- One iteration of the `while` loop of `common.__retry__`: run the
decorated method; return its value on success; on `MalformedByteArray`
sleep and loop again — the source never increments `cnt` — and propagate
any other exception; once the condition fails, raise
`AutoConfigurationFailure`. -/
def retryIter {α : Type} (attempts : Int) (step : Nat → Except PyErr α)
    (st : RetrySt) : Sum RetrySt (Except PyErr α) :=
  if retryCond attempts st then
    match step st.callIdx with
    | .ok v => .inr (.ok v)
    | .error .malformedByteArray => .inl ⟨st.callIdx + 1, st.cnt⟩
    | .error e => .inr (.error e)
  else .inr (.error .autoConfigurationFailure)

/-- Run the `common.__retry__` loop for at most `fuel` iterations: `none`
means the loop is still running after `fuel` iterations. -/
def retryRun {α : Type} (attempts : Int) (step : Nat → Except PyErr α) :
    Nat → RetrySt → Option (Except PyErr α)
  | 0, _ => none
  | fuel + 1, st =>
    match retryIter attempts step st with
    | .inr r => some r
    | .inl st' => retryRun attempts step fuel st'

/-- `commands.FO_CONFIG_BLOCK` (`A5 CE`). -/
def FO_CONFIG_BLOCK : List Nat := [0xA5, 0xCE]

/-- `commands.FAST_MSG_CONFIG_BLOCK` (`A5 46`). -/
def FAST_MSG_CONFIG_BLOCK : List Nat := [0xA5, 0x46]

/-- `commands.FAST_OP_REMOTE_BIT` (`A5 E0`). -/
def FAST_OP_REMOTE_BIT : List Nat := [0xA5, 0xE0]

/-- `commands.FAST_OP_BREAKER_BIT` (`A5 E3`). -/
def FAST_OP_BREAKER_BIT : List Nat := [0xA5, 0xE3]

/-- `commands.event_record_request`: for `event_number <= 64` the source
runs `request += hex(96 + event_number)`, concatenating a `str` (such as
`'0x60'`) onto a `bytes` object, which raises `TypeError`; above 64 it
raises the documented `ValueError`. -/
def event_record_request (event_number : Int) : Except PyErr (List Nat) :=
  if event_number ≤ 64 then .error .typeError
  else .error (.valueError "Event number may not be greater than 64.")

/-- `parser._validate_checksum`: read the declared length from the third
byte (an `IndexError` here — buffer shorter than three bytes — propagates
unwrapped); extract the checksum byte at `length - 1`, turning an
`IndexError` into `MalformedByteArray`; compare it against the 8-bit sum of
the preceding bytes, raising `ChecksumFail` on mismatch. -/
def validate_checksum (byte_array : List Nat) : Except PyErr Unit := do
  let data_length ← pyIndex byte_array 2
  let checksum_byte ←
    match pyIndex byte_array ((data_length : Int) - 1) with
    | .error .indexError => Except.error PyErr.malformedByteArray
    | .error e => Except.error e
    | .ok b => Except.ok b
  let data := pySlice byte_array 0 ((data_length : Int) - 1)
  let confirmed := eval_checksum data true
  if checksum_byte ≠ confirmed then .error .checksumFail else .ok ()

/-- The cleaning steps of `parser._cast_bytearray` once the `0xA5` header
has been located at `offset`: slice from the header, truncate at the
prompt sentinel `=` (byte 0x3D, `commands.LEVEL_0`) if one occurs, and
strip one trailing `\r\n`. -/
def strip_frame (data : List Nat) (offset : Nat) : List Nat :=
  let ba := data.drop offset
  let ba := if ba.contains 61 then ba.takeWhile (fun b => b ≠ 61) else ba
  if ba.length ≥ 2 ∧ ba.drop (ba.length - 2) = [13, 10] then
    ba.take (ba.length - 2)
  else ba

/-- `parser._cast_bytearray`: slice from the first `0xA5`
(`MissingA5Head` when absent), clean with `strip_frame`, then validate the
checksum and return the cleaned array. -/
def cast_bytearray (data : List Nat) : Except PyErr (List Nat) :=
  match data.findIdx? (fun b => b = 165) with
  | none => .error .missingA5Head
  | some offset =>
    match validate_checksum (strip_frame data offset) with
    | .error e => .error e
    | .ok _ => .ok (strip_frame data offset)

/-- A control point handed to `commands.prepare_fastop_command`: the source
accepts either an `int` or a `str` holding the point's number. -/
inductive CtrlPoint where
  | intPoint (n : Int)
  | strPoint (s : String)
  deriving DecidableEq, Repr

/-- First maximal run of decimal digits in a string —
`re.findall(r'(\d+)', s)[0]` — `none` when the string has no digit
(making the `[0]` subscript raise `IndexError`). -/
def firstDigitRun : List Char → Option (List Char)
  | [] => none
  | c :: rest =>
    if c.isDigit then some (c :: rest.takeWhile Char.isDigit)
    else firstDigitRun rest

def digitsToNat (cs : List Char) : Nat :=
  cs.foldl (fun a c => a * 10 + (c.toNat - '0'.toNat)) 0

/-- Point-number extraction at the top of `commands.prepare_fastop_command`:
an `int` passes through, a `str` is reduced to its first digit run. -/
def controlPointNumber (cp : CtrlPoint) : Except PyErr Int :=
  match cp with
  | .intPoint n => .ok n
  | .strPoint s =>
    match firstDigitRun s.data with
    | none => .error .indexError
    | some ds => .ok (digitsToNat ds)

/-- The Fast-Operate configuration dictionary consumed by
`commands.prepare_fastop_command`, as produced by
`parser.fast_op_configuration_block`: per remote bit, an association from
command name (`'clear'`, `'set'`, optionally `'pulse'`) to control code. -/
structure FastOpDef where
  remotebitconfig : List (List (String × Nat))
  deriving DecidableEq, Repr

/-- `commands.prepare_fastop_command`.  In source order: reduce a string
control point to its number; reject a command whose lower-casing is not in
`['set','clear','pulse','open','close']` with `ValueError`; pick the header
from the control type — the `else` branch raises the *undefined name*
`InvalidControlType`, i.e. a `NameError`, since `commands.py` never imports
it; append the length byte 6; fetch the control code from
`remotebitconfig[point-1][command]` (the `KeyError` of a missing command
key is converted to `ValueError`, while an `IndexError` from the list
subscript propagates); append the validation byte `(control*4+1) & 0xff`
and the 8-bit checksum. -/
def prepare_fastop_command (control_type : String) (control_point : CtrlPoint)
    (command : String) (fastop_def : FastOpDef) : Except PyErr (List Nat) := do
  let p ← controlPointNumber control_point
  if ¬ (["set", "clear", "pulse", "open", "close"].contains (strLower command)) then
    .error (.valueError "Invalid command type")
  else do
    let command_string ←
      if strLower control_type = "remote_bit" then pure FAST_OP_REMOTE_BIT
      else if strLower control_type = "breaker_bit" then pure FAST_OP_BREAKER_BIT
      else Except.error PyErr.nameError
    let command_string := command_string ++ [6]
    let control ← do
      let rb ← pyIndex fastop_def.remotebitconfig (p - 1)
      match rb.lookup command with
      | none => Except.error (PyErr.valueError "Improper command type for control point.")
      | some c => Except.ok c
    if control ≥ 256 then .error (.valueError "bytes must be in range(0, 256)")
    else
      let command_string := command_string ++ [control, (control * 4 + 1) % 256]
      .ok (command_string ++ [eval_checksum command_string true])

/-- One entry of `struct['fmcommandinfo']` in
`parser.relay_definition_block`. -/
structure FMCommandInfo where
  configcommand : List Nat
  command : List Nat
  deriving DecidableEq, Repr

/-- One entry of `struct['statusflaginfo']` in
`parser.relay_definition_block`. -/
structure StatusFlagInfo where
  statusbit : List Nat
  affectedcommand : List Nat
  deriving DecidableEq, Repr

/-- One entry of `struct['protocols']`: SEL-family entries carry the
Fast-Operate and Fast-Message capability bits, the others only a type
name. -/
structure ProtoDesc where
  ptype : String
  fast_op_en : Option Bool
  fast_msg_en : Option Bool
  deriving DecidableEq, Repr

/-- `struct['fopcommandinfo']` / `struct['fmsgcommandinfo']` start as the
empty string `''` (modelled `none`) and may be overwritten with a command
byte string. -/
def emptyCommandInfo : Option (List Nat) := none

/-- Result record of `parser.relay_definition_block`. -/
structure RelayDef where
  command : List Nat
  length : Nat
  numprotocolsup : Nat
  fmmessagesup : Nat
  statusflagssup : Nat
  fmcommandinfo : List FMCommandInfo
  fmtype : Nat
  statusflaginfo : List StatusFlagInfo
  protocols : List ProtoDesc
  fopcommandinfo : Option (List Nat)
  fmsgcommandinfo : Option (List Nat)
  deriving DecidableEq, Repr

/-- Loop state of the protocol-record loop in
`parser.relay_definition_block`.  `lastDesc` models the Python local
`proto_desc`, which survives loop iterations: a protocol code above 6
leaves it unchanged (appending the stale value), and on the first
iteration it is unbound, so using it raises `NameError`. -/
structure ProtSt where
  ind : Int
  protocols : List ProtoDesc
  fop : Option (List Nat)
  fmsg : Option (List Nat)
  lastDesc : Option ProtoDesc

/-- Protocol family names for codes 2–6. -/
def protoName (prot : Nat) : String :=
  if prot = 2 then "MODBUS"
  else if prot = 3 then "SY_MAX"
  else if prot = 4 then "R_SEL"
  else if prot = 5 then "DNP3"
  else "R6_SEL"

/-- One iteration of the protocol-record loop of
`parser.relay_definition_block`: read the capability byte (bit 0 =
Fast-Operate, bit 1 = Fast-Message) and the family byte; for the SEL
families (codes 0 and 1) adopt the default Fast-Operate and Fast-Message
configuration commands when the respective bit is set. -/
def protocolStep (ba : List Nat) (st : ProtSt) : Except PyErr ProtSt := do
  let capability ← pyIndex ba st.ind
  let data := int_to_bool_list capability ++ [false, false]
  let prot ← pyIndex ba (st.ind + 1)
  let b0 := data.getD 0 false
  let b1 := data.getD 1 false
  if prot = 0 ∨ prot = 1 then
    let desc : ProtoDesc :=
      ⟨if prot = 0 then "SEL_STANDARD" else "SEL_LMD", some b0, some b1⟩
    .ok ⟨st.ind + 2, st.protocols ++ [desc],
         if b0 then some FO_CONFIG_BLOCK else st.fop,
         if b1 then some FAST_MSG_CONFIG_BLOCK else st.fmsg,
         some desc⟩
  else if prot ≤ 6 then
    let desc : ProtoDesc := ⟨protoName prot, none, none⟩
    .ok ⟨st.ind + 2, st.protocols ++ [desc], st.fop, st.fmsg, some desc⟩
  else
    match st.lastDesc with
    | none => .error .nameError
    | some d => .ok ⟨st.ind + 2, st.protocols ++ [d], st.fop, st.fmsg, some d⟩

/-- The body of `parser.relay_definition_block` after
`_cast_bytearray`, i.e. the contents of its `try` block. -/
def relay_definition_body (ba : List Nat) : Except PyErr RelayDef := do
  let command := pySlice ba 0 2
  let length ← pyIndex ba 2
  let numprotocolsup ← pyIndex ba 3
  let fmmessagesup ← pyIndex ba 4
  let statusflagssup ← pyIndex ba 5
  let fmFold : Int × List FMCommandInfo :=
    (List.range fmmessagesup).foldl
      (fun st _ =>
        (st.1 + 4, st.2 ++ [⟨pySlice ba st.1 (st.1 + 2), pySlice ba (st.1 + 2) (st.1 + 4)⟩]))
      (6, [])
  let fmtype ← pyIndex ba fmFold.1
  let sfFold : Int × List StatusFlagInfo :=
    (List.range statusflagssup).foldl
      (fun st _ =>
        (st.1 + 8, st.2 ++ [⟨pySlice ba st.1 (st.1 + 2), pySlice ba (st.1 + 2) (st.1 + 8)⟩]))
      (fmFold.1 + 1, [])
  let protSt ←
    (List.range numprotocolsup).foldlM
      (fun st _ => protocolStep ba st)
      (⟨sfFold.1, [], emptyCommandInfo, emptyCommandInfo, none⟩ : ProtSt)
  .ok ⟨command, length, numprotocolsup, fmmessagesup, statusflagssup,
       fmFold.2, fmtype, sfFold.2, protSt.protocols, protSt.fop, protSt.fmsg⟩

/-- `parser.relay_definition_block`: cast/validate the byte array (outside
the `try` block, so its errors propagate), then parse the body, with
`except IndexError` converted to `ValueError("Invalid data string
response")`. -/
def relay_definition_block (data : List Nat) : Except PyErr RelayDef :=
  match cast_bytearray data with
  | .error e => .error e
  | .ok ba =>
    match relay_definition_body ba with
    | .error .indexError => .error (.valueError "Invalid data string response")
    | r => r

/-- A protocol entry advertising Fast-Operate capability for a SEL family
(code 0 or 1): capability bit 0 of the record's low byte was set. -/
def selFastOp (p : ProtoDesc) : Prop :=
  (p.ptype = "SEL_STANDARD" ∨ p.ptype = "SEL_LMD") ∧ p.fast_op_en = some true

/-- A protocol entry advertising Fast-Message capability for a SEL family:
capability bit 1 of the record's low byte was set. -/
def selFastMsg (p : ProtoDesc) : Prop :=
  (p.ptype = "SEL_STANDARD" ∨ p.ptype = "SEL_LMD") ∧ p.fast_msg_en = some true

/-- Invariant of the protocol-record loop: the Fast-Operate
(resp. Fast-Message) configuration command is adopted exactly when some
appended protocol entry advertises the capability for a SEL family, the
field only ever holds its initial empty value or the default command, and
the carried-over `proto_desc` can only advertise a capability whose
command has already been adopted. -/
def protInv (st : ProtSt) : Prop :=
  (st.fop = none ∨ st.fop = some FO_CONFIG_BLOCK) ∧
  (st.fop = some FO_CONFIG_BLOCK ↔ ∃ p ∈ st.protocols, selFastOp p) ∧
  (∀ d, st.lastDesc = some d → selFastOp d → st.fop = some FO_CONFIG_BLOCK) ∧
  (st.fmsg = none ∨ st.fmsg = some FAST_MSG_CONFIG_BLOCK) ∧
  (st.fmsg = some FAST_MSG_CONFIG_BLOCK ↔ ∃ p ∈ st.protocols, selFastMsg p) ∧
  (∀ d, st.lastDesc = some d → selFastMsg d → st.fmsg = some FAST_MSG_CONFIG_BLOCK)

/-- One analog-channel descriptor of a Fast Meter configuration
(`struct['analogchannels']` entries from
`parser.fast_meter_configuration_block`). -/
structure AnalogChannelDef where
  name : String
  channeltype : Nat
  factortype : Nat
  scaleoffset : Int
  deriving DecidableEq, Repr

/-- The fields of a captured Fast Meter configuration record that
`parser.fast_meter_block` dereferences. -/
structure FMConfigRec where
  numstatusflags : Nat
  analogchanoff : Int
  numsampperchan : Nat
  analogchannels : List AnalogChannelDef
  digitaloffset : Int
  numdigitalbank : Nat
  deriving DecidableEq, Repr

/-- One parsed analog value: a Python scalar (`int`/`float`), a `complex`
phasor, or the list kept when there are three or more samples per
channel. -/
inductive AnalogValue where
  | real (v : PyQ)
  | cplx (re im : PyQ)
  | samples (vs : List PyQ)
  deriving DecidableEq, Repr

/-- `dict[k] = v` on an insertion-ordered association list. -/
def dictSet {α : Type} (m : List (String × α)) (k : String) (v : α) :
    List (String × α) :=
  if m.any (fun p => p.1 = k) then m.map (fun p => if p.1 = k then (k, v) else p)
  else m ++ [(k, v)]

/-- `dict.update(entries)`. -/
def dictUpdate {α : Type} (m : List (String × α)) (entries : List (String × α)) :
    List (String × α) :=
  entries.foldl (fun m' p => dictSet m' p.1 p.2) m

/-- `dict.pop(k)` with no default: `none` models the `KeyError` raised when
the key is absent. -/
def dictPop {α : Type} (m : List (String × α)) (k : String) :
    Option (List (String × α)) :=
  if m.any (fun p => p.1 = k) then some (m.filter (fun p => ¬ p.1 = k)) else none

/-- `parser.common.ANALOG_SIZE_LOOKUP`: byte sizes per channel type; a type
outside the table raises `KeyError`. -/
def ANALOG_SIZE_LOOKUP (channeltype : Nat) : Option Nat :=
  if channeltype = 0 then some 2
  else if channeltype = 1 then some 4
  else if channeltype = 2 then some 8
  else if channeltype = 3 then some 8
  else none

/-- `parser.common.ANALOG_TYPE_FORMATTERS[type](value)`: type 0 is
`int.from_bytes` (big-endian, unsigned), type 1 `ieee_4_byte_fps`; the
table maps types 2 and 3 to `None`, so calling them raises `TypeError`. -/
def applyFormatter (channeltype : Nat) (value : List Nat) : Except PyErr PyQ :=
  if channeltype = 0 then .ok ⟨(int_from_bytes_be value : Int), 1⟩
  else if channeltype = 1 then ieee4bytefps value
  else .error .typeError

/-- `stored + analog_data` for the second Fast Meter sample pass: adding a
scalar to the value already in `struct['analogs']`; adding to a list raises
`TypeError`. -/
def AnalogValue.addScalar : AnalogValue → PyQ → Except PyErr AnalogValue
  | .real r, v => .ok (.real (r.add v))
  | .cplx re im, v => .ok (.cplx (re.add v) im)
  | .samples _, _ => .error .typeError

/-- The sample-aggregation rule of `parser.fast_meter_block`: one sample
per channel stores the scalar; two samples treat pass 0 as the imaginary
part — stored as `value * 1j` only when `analog_data > 1e-8` (a *signed*
comparison against the float literal), else as the integer 0 — and pass 1
as the real part added onto the stored value; any other count collects the
passes into a list. -/
def aggregateSample (samples sampN : Nat)
    (analogs : List (String × AnalogValue)) (name : String) (v : PyQ) :
    Except PyErr (List (String × AnalogValue)) :=
  if samples = 1 then .ok (dictSet analogs name (.real v))
  else if samples = 2 then
    if sampN = 0 then
      .ok (dictSet analogs name
        (if PyQ.blt PY_FLOAT_1E8 v then .cplx ⟨0, 1⟩ v else .real ⟨0, 1⟩))
    else
      match analogs.lookup name with
      | none => .error .keyError
      | some prev => do
        let s ← prev.addScalar v
        .ok (dictSet analogs name s)
  else
    if sampN = 0 then .ok (dictSet analogs name (.samples [v]))
    else
      match analogs.lookup name with
      | none => .error .keyError
      | some (.samples vs) => .ok (dictSet analogs name (.samples (vs ++ [v])))
      | some _ => .error .attributeError

/-- Loop state of the analog region of `parser.fast_meter_block`:
`scaleDef` tracks whether the Python local `scale` has been bound (it is
assigned — always the value 1 — only when a channel's factor type is
255). -/
structure AnalogSt where
  ind : Int
  scaleDef : Bool
  analogs : List (String × AnalogValue)

/-- One analog channel of one sample pass in `parser.fast_meter_block`:
look up the byte size (`KeyError` on an unknown channel type), slice and
format the raw bytes, multiply by `scale` — raising `NameError` when
`scale` is unbound because no factor-type-255 channel preceded — and
aggregate into the analog dictionary. -/
def analogStep (ba : List Nat) (samples sampN : Nat) (st : AnalogSt)
    (ch : AnalogChannelDef) : Except PyErr AnalogSt := do
  let size ←
    match ANALOG_SIZE_LOOKUP ch.channeltype with
    | none => Except.error PyErr.keyError
    | some s => Except.ok s
  let value := pySlice ba st.ind (st.ind + (size : Int))
  let v ← applyFormatter ch.channeltype value
  if ch.factortype ≠ 255 ∧ ¬ st.scaleDef then Except.error PyErr.nameError
  else do
    let analogs ← aggregateSample samples sampN st.analogs ch.name v
    .ok ⟨st.ind + size, st.scaleDef || ch.factortype = 255, analogs⟩

/-- The analog region loop of `parser.fast_meter_block`: for each sample
pass, walk the configured channel list, advancing one offset across all
passes. -/
def analogsLoop (ba : List Nat) (defn : FMConfigRec) : Except PyErr AnalogSt :=
  (List.range defn.numsampperchan).foldlM
    (fun st sampN =>
      defn.analogchannels.foldlM
        (fun st2 ch => analogStep ba defn.numsampperchan sampN st2 ch) st)
    (⟨defn.analogchanoff, false, []⟩ : AnalogSt)

/-- The digital region loop of `parser.fast_meter_block`: per bank, check
the DNA row count (`DnaDigitalsMisMatch` on disagreement), zip the first
eight names of the bank's DNA row with the bank byte expanded by
`int_to_bool_list(…, byte_like=True, reverse=True)`, and merge into the
digital dictionary. -/
def digitalsLoop (ba : List Nat) (defn : FMConfigRec)
    (dna_def : List (List String)) : Except PyErr (List (String × Bool)) :=
  (List.range defn.numdigitalbank).foldlM
    (fun (m : List (String × Bool)) idx => do
      if defn.numdigitalbank ≠ dna_def.length then
        Except.error PyErr.dnaDigitalsMisMatch
      else do
        let row ←
          match dna_def.get? idx with
          | none => Except.error PyErr.indexError
          | some r => Except.ok r
        let point_names := row.take 8
        let byte ← pyIndex ba (defn.digitaloffset + (idx : Int))
        let target_data := int_to_bool_list byte true true
        .ok (dictUpdate m (point_names.zip target_data)))
    []

/-- Result record of `parser.fast_meter_block`. -/
structure FMSample where
  command : List Nat
  length : Nat
  statusflag : List Nat
  analogs : List (String × AnalogValue)
  digitals : List (String × Bool)
  deriving DecidableEq, Repr

/-- The body of `parser.fast_meter_block` after `_cast_bytearray` (the
contents of its `try` block): header fields, analog loop, digital loop,
and the unconditional `struct['digitals'].pop('*')`, whose missing-key
`KeyError` is *not* caught by the `except IndexError` handler. -/
def fast_meter_body (ba : List Nat) (defn : FMConfigRec)
    (dna_def : List (List String)) : Except PyErr FMSample := do
  let command := pySlice ba 0 2
  let length ← pyIndex ba 2
  let statusflag := pySlice ba 3 (3 + (defn.numstatusflags : Int))
  let final ← analogsLoop ba defn
  let digs ← digitalsLoop ba defn dna_def
  match dictPop digs "*" with
  | none => .error .keyError
  | some digs' => .ok ⟨command, length, statusflag, final.analogs, digs'⟩

/-- `parser.fast_meter_block`: cast/validate the byte array (outside the
`try` block), then parse the body, converting `IndexError` — and only
`IndexError` — to `ValueError("Invalid data string response")`. -/
def fast_meter_block (data : List Nat) (definition : FMConfigRec)
    (dna_def : List (List String)) : Except PyErr FMSample :=
  match cast_bytearray data with
  | .error e => .error e
  | .ok ba =>
    match fast_meter_body ba definition dna_def with
    | .error .indexError => .error (.valueError "Invalid data string response")
    | r => r

/-- `\w` on the ASCII strings a relay returns. -/
def isWordChar (c : Char) : Bool := c.isAlphanum || c = '_'

/-- Shape of the first capture group in the `parser.common.RE_ID_BLOCKS`
patterns: `(SEL.*)`, `(\w.*)`, `(\w*)`, `(.*)` and `(\d*)`. -/
inductive G1Kind where
  | selAny
  | wordAny
  | wordStar
  | anyStar
  | digitStar
  deriving DecidableEq, Repr

/-- Match the tail `","(\w*)"` of an ID-row pattern at the head of `cs`,
returning the second capture.  `\w*` needs no backtracking here: a word
run can only be followed by the literal `"`, which is not a word
character, so the maximal run is the only viable one. -/
def idTailMatch (cs : List Char) : Option String :=
  match cs with
  | '"' :: ',' :: '"' :: rest =>
    let run := rest.takeWhile isWordChar
    let after := rest.drop run.length
    if after.head? = some '"' then some (String.mk run) else none
  | _ => none

/-- Greedy `(.*)` followed by the row tail: try the longest prefix of `cs`
first (the regex `.` never matches a newline, so the caller bounds `k` by
the newline-free run), backtracking one character at a time. -/
def anyStarFrom (cs : List Char) : Nat → Option (String × String)
  | 0 =>
    match idTailMatch cs with
    | some g2 => some ("", g2)
    | none => none
  | k + 1 =>
    match idTailMatch (cs.drop (k + 1)) with
    | some g2 => some (String.mk (cs.take (k + 1)), g2)
    | none => anyStarFrom cs k

/-- Length of the newline-free run at the head of `cs`: the furthest the
dot of `(.*)` can reach. -/
def dotLimit (cs : List Char) : Nat :=
  (cs.takeWhile (fun c => c ≠ '\n')).length

/-- Match one first-capture shape (greedily, with backtracking where `.*`
allows it) followed by the `","(\w*)"` tail; returns both captures. -/
def g1Match (g : G1Kind) (cs : List Char) : Option (String × String) :=
  match g with
  | .anyStar => anyStarFrom cs (dotLimit cs)
  | .selAny =>
    match cs with
    | 'S' :: 'E' :: 'L' :: rest =>
      (anyStarFrom rest (dotLimit rest)).map (fun p => ("SEL" ++ p.1, p.2))
    | _ => none
  | .wordAny =>
    match cs with
    | c :: rest =>
      if isWordChar c then
        (anyStarFrom rest (dotLimit rest)).map (fun p => (String.mk [c] ++ p.1, p.2))
      else none
    | [] => none
  | .wordStar =>
    let run := cs.takeWhile isWordChar
    (idTailMatch (cs.drop run.length)).map (fun g2 => (String.mk run, g2))
  | .digitStar =>
    let run := cs.takeWhile Char.isDigit
    (idTailMatch (cs.drop run.length)).map (fun g2 => (String.mk run, g2))

/-- Leftmost match of the pattern `"KEY=` + first capture + `","(\w*)"`
over a string: scan match-start positions left to right, as
`re.findall(...)[0]` selects the leftmost match. -/
def findIdRowAux (pat : List Char) (g : G1Kind) : List Char → Option (String × String)
  | [] => none
  | c :: rest =>
    if pat.isPrefixOf (c :: rest) then
      match g1Match g ((c :: rest).drop pat.length) with
      | some r => some r
      | none => findIdRowAux pat g rest
    else findIdRowAux pat g rest

/-- `parser.common.RE_ID_BLOCKS[key].findall(id_string)[0]`, specialised to
the eight row patterns: `none` models the empty `findall` result, whose
`[0]` subscript raises `IndexError`. -/
def findIdRow (key : String) (g : G1Kind) (s : String) : Option (String × String) :=
  findIdRowAux ('"' :: (key.data ++ ['='])) g s.data

/-- The ordered `parser.common.RE_ID_BLOCKS` table: key and
first-capture shape of each row pattern. -/
def RE_ID_BLOCKS : List (String × G1Kind) :=
  [("FID", .selAny), ("BFID", .wordAny), ("CID", .wordStar), ("DEVID", .anyStar),
   ("DEVCODE", .wordStar), ("PARTNO", .wordStar), ("CONFIG", .digitStar),
   ("SPECIAL", .digitStar)]

/-- One iteration of the key loop in `parser.relay_id_block`.  Everything
raised inside the loop's `try` lands in its blanket `except Exception`
handler, which only prints: a missing row (`IndexError` from `[0]`), a bad
hex checksum field (`ValueError` from `bytes.fromhex`), and — notably — the
`ChecksumFail` raised on a checksum mismatch are all swallowed, leaving the
key unset.  The checksum is compared *unconstrained*: `eval_checksum` is
called without `constrain=True`, so the full sum of `"KEY=value",` must
equal the field parsed as a big-endian signed integer. -/
def idProcessKey (id_string : String) (results : List (String × String))
    (key : String) (g : G1Kind) : List (String × String) :=
  match findIdRow key g id_string with
  | none => results
  | some (key_result, checksum_chars) =>
    match bytes_fromhex checksum_chars with
    | none => results
    | some bs =>
      let calc_checksum := eval_checksum_str ("\"" ++ key ++ "=" ++ key_result ++ "\",")
      let checksum := int_from_bytes_be_signed bs
      if checksum ≠ (calc_checksum : Int) then results
      else dictSet results key key_result

/-- `parser.relay_id_block` (string input, the default `encoding=''`): fold
the eight ID patterns over the reply; the function itself never raises —
every per-row failure is swallowed by its blanket handler. -/
def relay_id_block (data : String) : List (String × String) :=
  RE_ID_BLOCKS.foldl (fun results p => idProcessKey data results p.1 p.2) []

/-- Fast-Operate configuration of scenario S3: remote bit 1 has clear 1,
set 2, pulse 7. -/
def foDefS3 : FastOpDef := ⟨[[("clear", 1), ("set", 2), ("pulse", 7)]]⟩

/-- A 14-byte relay-definition frame (scenario S2 shape): one Fast Meter
message (`A5 C1` / `A5 D1`), no status flags, one protocol record
`01 00` = SEL_STANDARD with the Fast-Operate bit set; correct trailing
checksum 0x52. -/
def relayDefFrameS2 : List Nat :=
  [0xA5, 0xC0, 0x0E, 0x01, 0x01, 0x00, 0xA5, 0xC1, 0xA5, 0xD1, 0x00, 0x01, 0x00, 0x52]

/-- Fast Meter configuration for scenario S5: one status flag, no analog
channels, one digital bank at offset 4. -/
def fmConfigS5 : FMConfigRec := ⟨1, 4, 1, [], 4, 1⟩

/-- The DNA map of scenario S5. -/
def dnaS5 : List (List String) := [["IN1", "IN2", "*", "IN4", "IN5", "IN6", "IN7", "IN8"]]

/-- A 6-byte Fast Meter data frame whose digital bank byte is
`0b10110001` (0xB1), with correct trailing checksum. -/
def frameS5 : List Nat := [0xA5, 0xD1, 6, 0, 0xB1, 45]

/-- A single IEEE-float analog channel (`channeltype` 1) with no scaling
(`factortype` 255). -/
def iaChannel : AnalogChannelDef := ⟨"IA", 1, 255, 0⟩

/-- Fast Meter configuration with two samples per channel over the single
float channel `iaChannel`, one digital bank at offset 11. -/
def fmConfigPhasor : FMConfigRec := ⟨0, 3, 2, [iaChannel], 11, 1⟩

/-- DNA map for the phasor frames (first name is the `*` placeholder). -/
def dnaPhasor : List (List String) := [["*", "B2", "B3", "B4", "B5", "B6", "B7", "B8"]]

/-- Fast Meter data frame with two float samples: first pass
`BF C0 00 00` = −1.5, second pass `40 40 00 00` = 3.0. -/
def framePhasorNeg : List Nat := [165, 209, 13, 191, 192, 0, 0, 64, 64, 0, 0, 0, 130]

/-- Fast Meter data frame with two float samples: first pass
`40 20 00 00` = 2.5, second pass `40 40 00 00` = 3.0. -/
def framePhasorPos : List Nat := [165, 209, 13, 64, 32, 0, 0, 64, 64, 0, 0, 0, 99]

/-- Fast Meter configuration declaring zero digital banks. -/
def fmConfigNoBanks : FMConfigRec := ⟨1, 3, 1, [], 4, 0⟩

/-- A well-formed, checksum-valid 5-byte Fast Meter data frame for the
zero-bank configuration. -/
def frameNoBanks : List Nat := [165, 209, 5, 7, 130]

/-! ## Helper lemmas -/

theorem pyIndex_ofNat {α : Type} (xs : List α) (i : Nat) :
    pyIndex xs (i : Int) =
      (match xs.get? i with
       | some v => .ok v
       | none => .error .indexError) := by
  simp only [pyIndex]
  rw [if_neg (show ¬ ((i : Int) < 0) by omega), if_pos (show (0 : Int) ≤ (i : Int) by omega)]
  simp

theorem pySlice_zero_ofNat {α : Type} (xs : List α) (k : Nat) :
    pySlice xs 0 (k : Int) = xs.take k := by
  simp only [pySlice]
  rw [if_neg (show ¬ ((0 : Int) < 0) by omega), if_neg (show ¬ ((k : Int) < 0) by omega)]
  rw [min_eq_left (show (0 : Int) ≤ (xs.length : Int) by omega)]
  simp only [Int.toNat_zero, List.drop_zero]
  rcases le_or_lt (k : Int) (xs.length : Int) with h | h
  · rw [min_eq_left h]
    simp
  · rw [min_eq_right (le_of_lt h)]
    simp only [Int.toNat_natCast]
    rw [List.take_length, List.take_of_length_le (by omega)]

/-! ## Claim C6 -/

/-- C6: `event_record_request(n)` is claimed to return the two-byte request
`0xA5, 0x60+n` for `n ∈ [0, 64]` and to raise `ValueError` for `n > 64`.
The rejection above 64 behaves as claimed, but for every accepted `n` the
source appends `hex(96 + n)` — a `str` — onto a `bytes` object, so the call
raises `TypeError` instead of returning a request: evaluation of the
embedded code at the failing inputs 0 and 64. -/
theorem C6_event_record_request_bug :
    event_record_request 0 = .error .typeError ∧
    event_record_request 64 = .error .typeError ∧
    event_record_request 65 =
      .error (.valueError "Event number may not be greater than 64.") ∧
    event_record_request 0 ≠ .ok [0xA5, 0x60] := by
  decide

/-! ## Claim C5 -/

/-- C5: the retry wrapper is claimed to raise `AutoConfigurationFailure`
once a positive attempt budget `k` is exhausted by `MalformedByteArray`
failures.  The source never increments its attempt counter `cnt`, so with
`attempts = 1` and a step that always raises `MalformedByteArray` the loop
never terminates (first conjunct: no amount of fuel finishes it) — the
`AutoConfigurationFailure` branch is unreachable for any positive budget.
The remaining conjuncts record the parts of the claim the code does
satisfy: `attempts = 0` retries without bound, a successful attempt
returns the step's result immediately, and an exception other than
`MalformedByteArray` (here `ChecksumFail`) propagates immediately. -/
theorem C5_retry_counter_never_advances :
    (∀ fuel k, retryRun 1 (fun _ => (.error .malformedByteArray : Except PyErr Nat))
        fuel ⟨k, 0⟩ = none) ∧
    (∀ fuel k, retryRun 0 (fun _ => (.error .malformedByteArray : Except PyErr Nat))
        fuel ⟨k, 0⟩ = none) ∧
    (∀ fuel k, retryRun 1 (fun _ => (.ok 42 : Except PyErr Nat))
        (fuel + 1) ⟨k, 0⟩ = some (.ok 42)) ∧
    (∀ fuel k, retryRun 1 (fun _ => (.error .checksumFail : Except PyErr Nat))
        (fuel + 1) ⟨k, 0⟩ = some (.error .checksumFail)) := by
  refine ⟨?_, ?_, ?_, ?_⟩
  · intro fuel
    induction fuel with
    | zero => intro k; rfl
    | succ n ih =>
      intro k
      show retryRun 1 _ (n + 1) ⟨k, 0⟩ = none
      rw [retryRun]
      have : retryIter 1 (fun _ => (.error .malformedByteArray : Except PyErr Nat)) ⟨k, 0⟩
          = .inl ⟨k + 1, 0⟩ := by
        unfold retryIter retryCond
        norm_num
      rw [this]
      exact ih (k + 1)
  · intro fuel
    induction fuel with
    | zero => intro k; rfl
    | succ n ih =>
      intro k
      rw [retryRun]
      have : retryIter 0 (fun _ => (.error .malformedByteArray : Except PyErr Nat)) ⟨k, 0⟩
          = .inl ⟨k + 1, 0⟩ := by
        unfold retryIter retryCond
        norm_num
      rw [this]
      exact ih (k + 1)
  · intro fuel k
    rw [retryRun]
    have : retryIter 1 (fun _ => (.ok 42 : Except PyErr Nat)) ⟨k, 0⟩ = .inr (.ok 42) := by
      unfold retryIter retryCond
      norm_num
    rw [this]
  · intro fuel k
    rw [retryRun]
    have : retryIter 1 (fun _ => (.error .checksumFail : Except PyErr Nat)) ⟨k, 0⟩
        = .inr (.error .checksumFail) := by
      unfold retryIter retryCond
      norm_num
    rw [this]

/-! ## Claim C1 -/

/-- C1: for a buffer long enough to carry the declared length
`l = buf[2]` (the claim presupposes `buf[2]`, and a declared length of at
least 1, so the checksum position `l-1` is a well-defined natural index):
shorter than `l` fails `MalformedByteArray`; long enough with
`buf[l-1]` different from the 8-bit sum of `buf[0..l-2]` fails
`ChecksumFail`; otherwise the validator accepts. -/
theorem C1_validate_checksum_spec (buf : List Nat) (l : Nat)
    (hl : buf.get? 2 = some l) (hl1 : 1 ≤ l) :
    validate_checksum buf =
      (if buf.length < l then .error .malformedByteArray
       else if buf.getD (l - 1) 0 = (buf.take (l - 1)).sum % 256 then .ok ()
       else .error .checksumFail) := by
  have h2 : pyIndex buf 2 = .ok l := by
    rw [show (2 : Int) = ((2 : Nat) : Int) from rfl, pyIndex_ofNat, hl]
  have hcast : ((l : Int) - 1) = ((l - 1 : Nat) : Int) := by omega
  by_cases hlen : buf.length < l
  · rw [if_pos hlen]
    have hidx : pyIndex buf ((l : Int) - 1) = .error .indexError := by
      rw [hcast, pyIndex_ofNat, List.get?_eq_none.mpr (by omega)]
    simp only [validate_checksum, h2, hidx, bind, Except.bind]
  · rw [if_neg hlen]
    have hlt : l - 1 < buf.length := by omega
    obtain ⟨v, hv⟩ : ∃ v, buf.get? (l - 1) = some v := by
      rw [List.get?_eq_get hlt]
      exact ⟨_, rfl⟩
    have hidx : pyIndex buf ((l : Int) - 1) = .ok v := by
      rw [hcast, pyIndex_ofNat, hv]
    have hslice : pySlice buf 0 ((l : Int) - 1) = buf.take (l - 1) := by
      rw [hcast, pySlice_zero_ofNat]
    have hgetD : buf.getD (l - 1) 0 = v := by
      rw [List.getD_eq_getElem?_getD, ← List.get?_eq_getElem?, hv]
      rfl
    simp only [validate_checksum, h2, hidx, hslice, bind, Except.bind, eval_checksum,
      if_true]
    rw [hgetD]
    by_cases he : v = (buf.take (l - 1)).sum % 256
    · simp [he]
    · simp [he]

/-- Witness for C1: the S1-style frame `A5 C0 06 01 02 6E` (checksum
0x6E = 110 equals the 8-bit sum of the first five bytes) is accepted by
the validator, via `C1_validate_checksum_spec` at `l = 6`. -/
theorem C1_validate_checksum_witness :
    validate_checksum [0xA5, 0xC0, 6, 1, 2, 110] = .ok () := by
  have h := C1_validate_checksum_spec [0xA5, 0xC0, 6, 1, 2, 110] 6
    (by decide) (by decide)
  rw [h]
  decide

theorem except_bind_ok {ε α β : Type} (a : α) (f : α → Except ε β) :
    (Except.ok a : Except ε α) >>= f = f a := rfl

theorem except_bind_error {ε α β : Type} (e : ε) (f : α → Except ε β) :
    (Except.error e : Except ε α) >>= f = .error e := rfl

theorem except_bind_pure {ε α β : Type} (a : α) (f : α → Except ε β) :
    (pure a : Except ε α) >>= f = f a := rfl

/-! ## Claim C2 -/

/-- C2: every Fast-Operate command frame successfully assembled by
`prepare_fastop_command` is exactly 6 bytes: the header is `A5 E0` for a
remote-bit request and `A5 E3` for a breaker-bit request, byte 2 is 6,
byte 3 is the control code looked up in the stored Fast-Operate
configuration (`remotebitconfig[point-1][command]`), byte 4 is
`(byte3*4 + 1) mod 256` and byte 5 is the 8-bit sum of bytes 0–4. -/
theorem C2_fastop_frame_shape (control_type : String) (control_point : CtrlPoint)
    (command : String) (fastop_def : FastOpDef) (out : List Nat)
    (h : prepare_fastop_command control_type control_point command fastop_def = .ok out) :
    out.length = 6 ∧
    (strLower control_type = "remote_bit" → out.take 2 = FAST_OP_REMOTE_BIT) ∧
    (strLower control_type = "breaker_bit" → out.take 2 = FAST_OP_BREAKER_BIT) ∧
    out.getD 2 0 = 6 ∧
    (∃ p rb, controlPointNumber control_point = .ok p ∧
       pyIndex fastop_def.remotebitconfig (p - 1) = .ok rb ∧
       rb.lookup command = some (out.getD 3 0)) ∧
    out.getD 4 0 = (out.getD 3 0 * 4 + 1) % 256 ∧
    out.getD 5 0 = (out.take 5).sum % 256 := by
  unfold prepare_fastop_command at h
  cases hp : controlPointNumber control_point with
  | error e =>
    simp only [hp, except_bind_error] at h
    exact Except.noConfusion h
  | ok p =>
    simp only [hp, except_bind_ok] at h
    by_cases hcmd : (["set", "clear", "pulse", "open", "close"].contains (strLower command) = true)
    · rw [if_neg (not_not_intro hcmd)] at h
      by_cases hrb : strLower control_type = "remote_bit"
      · rw [if_pos hrb] at h
        simp only [except_bind_pure] at h
        cases hidx : pyIndex fastop_def.remotebitconfig ((p : Int) - 1) with
        | error e =>
          simp only [hidx, except_bind_error] at h
          exact Except.noConfusion h
        | ok rb =>
          simp only [hidx, except_bind_ok] at h
          cases hlook : rb.lookup command with
          | none =>
            simp only [hlook, except_bind_error] at h
            exact Except.noConfusion h
          | some control =>
            simp only [hlook, except_bind_ok] at h
            by_cases hbig : control ≥ 256
            · rw [if_pos hbig] at h
              exact Except.noConfusion h
            · rw [if_neg hbig] at h
              have hout := Except.ok.inj h
              subst hout
              refine ⟨by simp [FAST_OP_REMOTE_BIT],
                fun _ => by simp [FAST_OP_REMOTE_BIT],
                fun hbr => absurd hbr (by rw [hrb]; decide),
                by simp [FAST_OP_REMOTE_BIT],
                ⟨p, rb, rfl, hidx, by simpa [FAST_OP_REMOTE_BIT] using hlook⟩,
                by simp [FAST_OP_REMOTE_BIT],
                by simp [FAST_OP_REMOTE_BIT, eval_checksum]⟩
      · by_cases hbb : strLower control_type = "breaker_bit"
        · rw [if_neg hrb, if_pos hbb] at h
          simp only [except_bind_pure] at h
          cases hidx : pyIndex fastop_def.remotebitconfig ((p : Int) - 1) with
          | error e =>
            simp only [hidx, except_bind_error] at h
            exact Except.noConfusion h
          | ok rb =>
            simp only [hidx, except_bind_ok] at h
            cases hlook : rb.lookup command with
            | none =>
              simp only [hlook, except_bind_error] at h
              exact Except.noConfusion h
            | some control =>
              simp only [hlook, except_bind_ok] at h
              by_cases hbig : control ≥ 256
              · rw [if_pos hbig] at h
                exact Except.noConfusion h
              · rw [if_neg hbig] at h
                have hout := Except.ok.inj h
                subst hout
                refine ⟨by simp [FAST_OP_BREAKER_BIT],
                  fun hr => absurd hr (by rw [hbb]; decide),
                  fun _ => by simp [FAST_OP_BREAKER_BIT],
                  by simp [FAST_OP_BREAKER_BIT],
                  ⟨p, rb, rfl, hidx, by simpa [FAST_OP_BREAKER_BIT] using hlook⟩,
                  by simp [FAST_OP_BREAKER_BIT],
                  by simp [FAST_OP_BREAKER_BIT, eval_checksum]⟩
        · rw [if_neg hrb, if_neg hbb] at h
          simp only [except_bind_error] at h
          exact Except.noConfusion h
    · rw [if_pos hcmd] at h
      exact Except.noConfusion h

/-- Witness for C2, scenario S3: pulsing remote bit `"RB1"` against
`foDefS3` (pulse code 7) assembles `A5 E0 06 07 1D AF`
(0x1D = 7·4+1, 0xAF = 8-bit sum of the first five bytes), and
`C2_fastop_frame_shape` applies to it. -/
theorem C2_fastop_frame_shape_witness :
    ([0xA5, 0xE0, 6, 7, 0x1D, 0xAF] : List Nat).length = 6 ∧
    (strLower "remote_bit" = "remote_bit" →
      ([0xA5, 0xE0, 6, 7, 0x1D, 0xAF] : List Nat).take 2 = FAST_OP_REMOTE_BIT) ∧
    (strLower "remote_bit" = "breaker_bit" →
      ([0xA5, 0xE0, 6, 7, 0x1D, 0xAF] : List Nat).take 2 = FAST_OP_BREAKER_BIT) ∧
    ([0xA5, 0xE0, 6, 7, 0x1D, 0xAF] : List Nat).getD 2 0 = 6 ∧
    (∃ p rb, controlPointNumber (.strPoint "RB1") = .ok p ∧
       pyIndex foDefS3.remotebitconfig (p - 1) = .ok rb ∧
       rb.lookup "pulse" = some (([0xA5, 0xE0, 6, 7, 0x1D, 0xAF] : List Nat).getD 3 0)) ∧
    ([0xA5, 0xE0, 6, 7, 0x1D, 0xAF] : List Nat).getD 4 0 =
      (([0xA5, 0xE0, 6, 7, 0x1D, 0xAF] : List Nat).getD 3 0 * 4 + 1) % 256 ∧
    ([0xA5, 0xE0, 6, 7, 0x1D, 0xAF] : List Nat).getD 5 0 =
      (([0xA5, 0xE0, 6, 7, 0x1D, 0xAF] : List Nat).take 5).sum % 256 :=
  C2_fastop_frame_shape "remote_bit" (.strPoint "RB1") "pulse" foDefS3
    [0xA5, 0xE0, 6, 7, 0x1D, 0xAF] (by decide)

/-! ## Claim C9 -/

/-- Counterexample to C9: the claim admits TRIP for breaker bits and
promises the typed errors `InvalidCommandType` / `InvalidControlType`.
In the source, `'trip'` is not in the accepted command list, so a TRIP
request on a breaker bit is rejected with the builtin
`ValueError("Invalid command type")` even when the stored configuration
could serve it; and an unrecognized control type hits
`raise InvalidControlType(...)` with `InvalidControlType` never imported
into `commands.py`, i.e. a `NameError`, not the typed error. -/
theorem C9_fastop_validation_counterexample :
    prepare_fastop_command "breaker_bit" (.intPoint 1) "TRIP" foDefS3 =
      .error (.valueError "Invalid command type") ∧
    prepare_fastop_command "bogus_type" (.intPoint 1) "set" foDefS3 =
      .error .nameError := by
  decide

/-- C9 amended: `prepare_fastop_command` accepts exactly the commands
whose lower-casing lies in `{set, clear, pulse, open, close}`, for remote
bits and breaker bits alike — TRIP is always rejected — and the
rejections are `ValueError("Invalid command type")` for a bad command and
`NameError` (the undefined name `InvalidControlType`) for a bad control
type; moreover a command that passes validation but is absent from the
point's stored configuration row is rejected with
`ValueError("Improper command type for control point.")` (the `KeyError`
of the dictionary lookup, converted by the `except KeyError` clause); no
transport I/O is involved (the embedding is a pure function). -/
theorem C9_fastop_validation_amended :
    (∀ (control_type : String) (cp : CtrlPoint) (command : String) (fo : FastOpDef) (p : Int),
      controlPointNumber cp = .ok p →
      ¬ (["set", "clear", "pulse", "open", "close"].contains (strLower command) = true) →
      prepare_fastop_command control_type cp command fo =
        .error (.valueError "Invalid command type")) ∧
    (∀ (control_type : String) (cp : CtrlPoint) (command : String) (fo : FastOpDef) (p : Int),
      controlPointNumber cp = .ok p →
      (["set", "clear", "pulse", "open", "close"].contains (strLower command) = true) →
      ¬ strLower control_type = "remote_bit" →
      ¬ strLower control_type = "breaker_bit" →
      prepare_fastop_command control_type cp command fo = .error .nameError) ∧
    (∀ (control_type : String) (cp : CtrlPoint) (command : String) (fo : FastOpDef)
      (p : Int) (rb : List (String × Nat)),
      controlPointNumber cp = .ok p →
      (["set", "clear", "pulse", "open", "close"].contains (strLower command) = true) →
      (strLower control_type = "remote_bit" ∨ strLower control_type = "breaker_bit") →
      pyIndex fo.remotebitconfig (p - 1) = .ok rb →
      rb.lookup command = none →
      prepare_fastop_command control_type cp command fo =
        .error (.valueError "Improper command type for control point.")) := by
  refine ⟨?_, ?_, ?_⟩
  · intro control_type cp command fo p hp hcmd
    unfold prepare_fastop_command
    simp only [hp, except_bind_ok]
    rw [if_pos hcmd]
  · intro control_type cp command fo p hp hcmd hrb hbb
    unfold prepare_fastop_command
    simp only [hp, except_bind_ok]
    rw [if_neg (not_not_intro hcmd), if_neg hrb, if_neg hbb]
    simp only [except_bind_error]
  · intro control_type cp command fo p rb hp hcmd hct hidx hlk
    unfold prepare_fastop_command
    simp only [hp, except_bind_ok]
    rw [if_neg (not_not_intro hcmd)]
    cases hct with
    | inl h1 =>
      rw [if_pos h1]
      simp only [except_bind_pure, hidx, except_bind_ok, hlk, except_bind_error]
    | inr h2 =>
      by_cases h1 : strLower control_type = "remote_bit"
      · rw [if_pos h1]
        simp only [except_bind_pure, hidx, except_bind_ok, hlk, except_bind_error]
      · rw [if_neg h1, if_pos h2]
        simp only [except_bind_pure, hidx, except_bind_ok, hlk, except_bind_error]

/-- Witness for C9's amended statement: TRIP on a breaker bit is rejected
with `ValueError` (first part of `C9_fastop_validation_amended`), and the
accepted command `open`, absent from point 1's stored configuration row in
`foDefS3`, is rejected with the lookup-miss `ValueError` (third part). -/
theorem C9_fastop_validation_amended_witness :
    prepare_fastop_command "breaker_bit" (.intPoint 1) "TRIP" foDefS3 =
      .error (.valueError "Invalid command type") ∧
    prepare_fastop_command "remote_bit" (.intPoint 1) "open" foDefS3 =
      .error (.valueError "Improper command type for control point.") :=
  ⟨C9_fastop_validation_amended.1 "breaker_bit" (.intPoint 1) "TRIP" foDefS3 1
    rfl (by decide),
   C9_fastop_validation_amended.2.2 "remote_bit" (.intPoint 1) "open" foDefS3 1
    [("clear", 1), ("set", 2), ("pulse", 7)]
    rfl (by decide) (Or.inl rfl) (by decide) (by decide)⟩

theorem cast_ok_validate {data ba : List Nat} (h : cast_bytearray data = .ok ba) :
    validate_checksum ba = .ok () := by
  unfold cast_bytearray at h
  cases hf : data.findIdx? (fun b => b = 165) with
  | none =>
    simp only [hf] at h
    exact Except.noConfusion h
  | some offset =>
    simp only [hf] at h
    cases hv : validate_checksum (strip_frame data offset) with
    | error e =>
      simp only [hv] at h
      exact Except.noConfusion h
    | ok u =>
      simp only [hv] at h
      rw [← Except.ok.inj h]
      cases u
      exact hv

theorem validate_ok_index2 {ba : List Nat} (h : validate_checksum ba = .ok ()) :
    ∃ l, pyIndex ba 2 = .ok l := by
  unfold validate_checksum at h
  cases h2 : pyIndex ba 2 with
  | error e =>
    simp only [h2, except_bind_error] at h
    exact Except.noConfusion h
  | ok l => exact ⟨l, rfl⟩

/-! ## Claim C10 -/

/-- C10: `fast_meter_block` unconditionally pops the key `'*'` from the
assembled digital map; on every frame that validates and parses up to the
digital map but whose map holds no `'*'` key (zero digital banks
included), the call fails with the uncaught `KeyError` — the block's
handler converts only `IndexError` to `ValueError` — instead of
returning a result. -/
theorem C10_star_pop_spec (data : List Nat) (defn : FMConfigRec)
    (dna_def : List (List String)) (ba : List Nat) (st : AnalogSt)
    (digs : List (String × Bool))
    (hc : cast_bytearray data = .ok ba)
    (ha : analogsLoop ba defn = .ok st)
    (hd : digitalsLoop ba defn dna_def = .ok digs)
    (hstar : ∀ p ∈ digs, p.1 ≠ "*") :
    fast_meter_block data defn dna_def = .error .keyError := by
  obtain ⟨l, hl⟩ := validate_ok_index2 (cast_ok_validate hc)
  have hpop : dictPop digs "*" = none := by
    unfold dictPop
    rw [if_neg]
    intro hany
    obtain ⟨p, hp, hpeq⟩ := List.any_eq_true.mp hany
    exact hstar p hp (of_decide_eq_true hpeq)
  unfold fast_meter_block
  simp only [hc]
  unfold fast_meter_body
  simp only [hl, except_bind_ok, ha, hd, hpop]

/-- Witness for C10: the checksum-valid frame `frameNoBanks` parsed
against the zero-bank configuration raises `KeyError`, via
`C10_star_pop_spec`. -/
theorem C10_star_pop_witness :
    fast_meter_block frameNoBanks fmConfigNoBanks [] = .error .keyError :=
  C10_star_pop_spec frameNoBanks fmConfigNoBanks [] frameNoBanks ⟨3, false, []⟩ []
    rfl rfl rfl (by simp)

/-! ## Claim C3 -/

/-- Counterexample to C3 (scenario S5): decoding `frameS5` — digital bank
byte `0b10110001` — against the DNA row
`["IN1","IN2","*","IN4","IN5","IN6","IN7","IN8"]` does *not* produce the
claimed map `{IN1:T, IN2:F, IN4:F, IN5:T, IN6:T, IN7:F, IN8:T}`: the
source expands the byte with `reverse=True`, i.e. most-significant bit
first, so IN4 reads bit 4 = 1, IN5 bit 3 = 0, IN6 bit 2 = 0. -/
theorem C3_digital_decode_counterexample :
    (fast_meter_block frameS5 fmConfigS5 dnaS5).map (fun s => s.digitals) =
      .ok [("IN1", true), ("IN2", false), ("IN4", true), ("IN5", false),
           ("IN6", false), ("IN7", false), ("IN8", true)] ∧
    (fast_meter_block frameS5 fmConfigS5 dnaS5).map (fun s => s.digitals) ≠
      .ok [("IN1", true), ("IN2", false), ("IN4", false), ("IN5", true),
           ("IN6", true), ("IN7", false), ("IN8", true)] := by
  decide

/-- C3 amended: for every Fast Meter data frame that parses successfully
against a configuration with a single digital bank and the S5 DNA row,
whose digital bank byte is `0b10110001`, the produced digital map — the
byte expanded *most-significant bit first* (`reverse=True`), zipped with
the row, `'*'` dropped — is
`{IN1:T, IN2:F, IN4:T, IN5:F, IN6:F, IN7:F, IN8:T}`. -/
theorem C3_digital_decode_amended (data : List Nat) (defn : FMConfigRec)
    (dna_def : List (List String)) (s : FMSample) (ba : List Nat)
    (hc : cast_bytearray data = .ok ba)
    (hres : fast_meter_block data defn dna_def = .ok s)
    (hbank : defn.numdigitalbank = 1)
    (hdna : dna_def = [["IN1", "IN2", "*", "IN4", "IN5", "IN6", "IN7", "IN8"]])
    (hbyte : pyIndex ba defn.digitaloffset = .ok 177) :
    s.digitals = [("IN1", true), ("IN2", false), ("IN4", true), ("IN5", false),
      ("IN6", false), ("IN7", false), ("IN8", true)] := by
  subst hdna
  obtain ⟨l, hl⟩ := validate_ok_index2 (cast_ok_validate hc)
  have hdl : digitalsLoop ba defn [["IN1", "IN2", "*", "IN4", "IN5", "IN6", "IN7", "IN8"]] =
      .ok [("IN1", true), ("IN2", false), ("*", true), ("IN4", true), ("IN5", false),
        ("IN6", false), ("IN7", false), ("IN8", true)] := by
    unfold digitalsLoop
    rw [hbank]
    norm_num
    rw [show List.range 1 = [0] from rfl]
    simp only [List.foldlM_cons, List.foldlM_nil, List.getElem?_cons_zero, Nat.cast_zero,
      add_zero, except_bind_ok]
    rw [hbyte]
    simp only [except_bind_ok]
    rfl
  unfold fast_meter_block at hres
  simp only [hc] at hres
  cases hb : fast_meter_body ba defn [["IN1", "IN2", "*", "IN4", "IN5", "IN6", "IN7", "IN8"]] with
  | error e =>
    rw [hb] at hres
    cases e <;> exact Except.noConfusion hres
  | ok smp =>
    rw [hb] at hres
    have hs : smp = s := Except.ok.inj hres
    subst hs
    unfold fast_meter_body at hb
    simp only [hl, except_bind_ok] at hb
    cases hana : analogsLoop ba defn with
    | error e =>
      simp only [hana, except_bind_error] at hb
      exact Except.noConfusion hb
    | ok ast =>
      simp only [hana, except_bind_ok, hdl] at hb
      rw [show dictPop [("IN1", true), ("IN2", false), ("*", true), ("IN4", true),
            ("IN5", false), ("IN6", false), ("IN7", false), ("IN8", true)] "*" =
          some [("IN1", true), ("IN2", false), ("IN4", true), ("IN5", false),
            ("IN6", false), ("IN7", false), ("IN8", true)] by decide] at hb
      rw [← Except.ok.inj hb]

/-- Witness for C3's amended statement, instantiated at `frameS5`. -/
theorem C3_digital_decode_amended_witness :
    ({ command := [165, 209], length := 6, statusflag := [0], analogs := [],
       digitals := [("IN1", true), ("IN2", false), ("IN4", true), ("IN5", false),
         ("IN6", false), ("IN7", false), ("IN8", true)] } : FMSample).digitals =
      [("IN1", true), ("IN2", false), ("IN4", true), ("IN5", false),
       ("IN6", false), ("IN7", false), ("IN8", true)] :=
  C3_digital_decode_amended frameS5 fmConfigS5 dnaS5 _ frameS5
    (by decide) (by decide) (by decide) rfl (by decide)

theorem pyq_zero_add (v : PyQ) : PyQ.add ⟨0, 1⟩ v = v := by
  cases v with
  | mk n d => simp [PyQ.add]

theorem fast_meter_ok_analogs (data : List Nat) (defn : FMConfigRec)
    (dna_def : List (List String)) (s : FMSample) (ba : List Nat) (ast : AnalogSt)
    (hc : cast_bytearray data = .ok ba)
    (hres : fast_meter_block data defn dna_def = .ok s)
    (hana : analogsLoop ba defn = .ok ast) :
    s.analogs = ast.analogs := by
  obtain ⟨l, hl⟩ := validate_ok_index2 (cast_ok_validate hc)
  unfold fast_meter_block at hres
  simp only [hc] at hres
  cases hb : fast_meter_body ba defn dna_def with
  | error e =>
    rw [hb] at hres
    cases e <;> exact Except.noConfusion hres
  | ok smp =>
    rw [hb] at hres
    rw [← Except.ok.inj hres]
    unfold fast_meter_body at hb
    simp only [hl, except_bind_ok, hana] at hb
    cases hd : digitalsLoop ba defn dna_def with
    | error e =>
      simp only [hd, except_bind_error] at hb
      exact Except.noConfusion hb
    | ok digs =>
      simp only [hd, except_bind_ok] at hb
      cases hp : dictPop digs "*" with
      | none =>
        rw [hp] at hb
        exact Except.noConfusion hb
      | some digs2 =>
        rw [hp] at hb
        rw [← Except.ok.inj hb]

/-! ## Claim C7 -/

set_option maxRecDepth 4000 in
/-- Counterexample to C7: `framePhasorNeg` carries first-pass sample −1.5
and second-pass sample 3.0 on its single float channel.  The magnitude of
−1.5 exceeds 1e-8 (third conjunct), so the claim demands the phasor
3.0 − 1.5i; but the source compares the *signed* value against `1e-8`
(second-to-last conjunct: −1.5 is below the threshold), stores the integer
0 for the first pass, and yields the plain scalar 3.0 with no imaginary
part. -/
theorem C7_two_sample_counterexample :
    (fast_meter_block framePhasorNeg fmConfigPhasor dnaPhasor).map (fun s => s.analogs) =
      .ok [("IA", AnalogValue.real ⟨3000000, 1000000⟩)] ∧
    (fast_meter_block framePhasorNeg fmConfigPhasor dnaPhasor).map (fun s => s.analogs) ≠
      .ok [("IA", AnalogValue.cplx ⟨3000000, 1000000⟩ ⟨-1500000, 1000000⟩)] ∧
    PyQ.blt ⟨-1500000, 1000000⟩ PY_FLOAT_1E8 = true ∧
    PyQ.blt PY_FLOAT_1E8 ⟨1500000, 1000000⟩ = true := by
  decide

/-- C7 amended: when the captured configuration declares 2 samples per
channel (stated here for a configuration with a single analog channel and
no scaling, `factortype` 255), the parsed analog value is
`second + first·i` when the first-pass sample exceeds `1e-8` under the
*signed* comparison the source performs, and the bare scalar `second`
(imaginary part zero, the stored integer 0) otherwise — in particular a
negative first-pass sample is dropped even though its magnitude exceeds
the threshold. -/
theorem C7_two_sample_amended (data : List Nat) (defn : FMConfigRec)
    (dna_def : List (List String)) (s : FMSample) (ba : List Nat)
    (ch : AnalogChannelDef) (size : Nat) (v0 v1 : PyQ)
    (hc : cast_bytearray data = .ok ba)
    (hres : fast_meter_block data defn dna_def = .ok s)
    (hsamp : defn.numsampperchan = 2)
    (hch : defn.analogchannels = [ch])
    (hscale : ch.factortype = 255)
    (hsize : ANALOG_SIZE_LOOKUP ch.channeltype = some size)
    (hv0 : applyFormatter ch.channeltype
      (pySlice ba defn.analogchanoff (defn.analogchanoff + (size : Int))) = .ok v0)
    (hv1 : applyFormatter ch.channeltype
      (pySlice ba (defn.analogchanoff + (size : Int))
        (defn.analogchanoff + (size : Int) + (size : Int))) = .ok v1) :
    s.analogs = [(ch.name,
      if PyQ.blt PY_FLOAT_1E8 v0 then AnalogValue.cplx v1 v0 else AnalogValue.real v1)] := by
  have hstep0 : analogStep ba 2 0 ⟨defn.analogchanoff, false, []⟩ ch =
      .ok ⟨defn.analogchanoff + (size : Int), true,
        [(ch.name, if PyQ.blt PY_FLOAT_1E8 v0 then AnalogValue.cplx ⟨0, 1⟩ v0
          else AnalogValue.real ⟨0, 1⟩)]⟩ := by
    unfold analogStep
    simp only [hsize, except_bind_ok, hv0, hscale]
    norm_num [aggregateSample, dictSet]
    rfl
  have hstep1 : analogStep ba 2 1
      ⟨defn.analogchanoff + (size : Int), true,
        [(ch.name, if PyQ.blt PY_FLOAT_1E8 v0 then AnalogValue.cplx ⟨0, 1⟩ v0
          else AnalogValue.real ⟨0, 1⟩)]⟩ ch =
      .ok ⟨defn.analogchanoff + (size : Int) + (size : Int), true,
        [(ch.name, if PyQ.blt PY_FLOAT_1E8 v0 then AnalogValue.cplx v1 v0
          else AnalogValue.real v1)]⟩ := by
    unfold analogStep
    simp only [hsize, except_bind_ok, hv1, hscale]
    by_cases hblt : PyQ.blt PY_FLOAT_1E8 v0 = true
    · simp only [hblt, if_true]
      norm_num [aggregateSample, dictSet, List.lookup, AnalogValue.addScalar, pyq_zero_add]
      rfl
    · simp only [Bool.not_eq_true] at hblt
      simp only [hblt]
      norm_num [aggregateSample, dictSet, List.lookup, AnalogValue.addScalar, pyq_zero_add]
      rfl
  have hana : analogsLoop ba defn =
      .ok ⟨defn.analogchanoff + (size : Int) + (size : Int), true,
        [(ch.name, if PyQ.blt PY_FLOAT_1E8 v0 then AnalogValue.cplx v1 v0
          else AnalogValue.real v1)]⟩ := by
    unfold analogsLoop
    rw [hsamp, hch, show List.range 2 = [0, 1] from rfl]
    simp only [List.foldlM_cons, List.foldlM_nil, except_bind_pure, hstep0,
      except_bind_ok, hstep1]
    rfl
  exact fast_meter_ok_analogs data defn dna_def s ba _ hc hres hana

set_option maxRecDepth 8000 in
/-- Witness for C7's amended statement: `framePhasorPos` (first pass 2.5,
second pass 3.0) parses to the phasor 3.0 + 2.5i, via
`C7_two_sample_amended`. -/
theorem C7_two_sample_amended_witness :
    ({ command := [165, 209], length := 13, statusflag := [],
       analogs := [("IA", AnalogValue.cplx ⟨3000000, 1000000⟩ ⟨2500000, 1000000⟩)],
       digitals := [("B2", false), ("B3", false), ("B4", false), ("B5", false),
         ("B6", false), ("B7", false), ("B8", false)] } : FMSample).analogs =
      [("IA", if PyQ.blt PY_FLOAT_1E8 ⟨2500000, 1000000⟩ then
          AnalogValue.cplx ⟨3000000, 1000000⟩ ⟨2500000, 1000000⟩
        else AnalogValue.real ⟨3000000, 1000000⟩)] :=
  C7_two_sample_amended framePhasorPos fmConfigPhasor dnaPhasor _ framePhasorPos
    iaChannel 4 ⟨2500000, 1000000⟩ ⟨3000000, 1000000⟩
    (by decide) (by decide) rfl rfl rfl rfl (by decide) (by decide)

theorem protocolStep_inv (ba : List Nat) (st st' : ProtSt)
    (h : protocolStep ba st = .ok st') (hinv : protInv st) : protInv st' := by
  obtain ⟨hf1, hf2, hf3, hm1, hm2, hm3⟩ := hinv
  unfold protocolStep at h
  cases hcap : pyIndex ba st.ind with
  | error e =>
    simp only [hcap, except_bind_error] at h
    exact Except.noConfusion h
  | ok capability =>
    simp only [hcap, except_bind_ok] at h
    cases hprot : pyIndex ba (st.ind + 1) with
    | error e =>
      simp only [hprot, except_bind_error] at h
      exact Except.noConfusion h
    | ok prot =>
      simp only [hprot, except_bind_ok] at h
      by_cases hsel : prot = 0 ∨ prot = 1
      · rw [if_pos hsel] at h
        rw [← Except.ok.inj h]
        clear h hcap hprot
        generalize (int_to_bool_list capability ++ [false, false]).getD 0 false = b0
        generalize (int_to_bool_list capability ++ [false, false]).getD 1 false = b1
        cases b0 <;> cases b1 <;>
          refine ⟨?_, ?_, ?_, ?_, ?_, ?_⟩ <;>
          simp [selFastOp, selFastMsg] <;>
          first
          | exact hf1
          | exact hm1
          | (rw [hf2]
             constructor
             · rintro ⟨p, hp, hx⟩
               exact ⟨p, Or.inl hp, hx⟩
             · rintro ⟨p, hp | rfl, hx1, hx2⟩
               · exact ⟨p, hp, hx1, hx2⟩
               · exact absurd hx2 (by simp))
          | (rw [hm2]
             constructor
             · rintro ⟨p, hp, hx⟩
               exact ⟨p, Or.inl hp, hx⟩
             · rintro ⟨p, hp | rfl, hx1, hx2⟩
               · exact ⟨p, hp, hx1, hx2⟩
               · exact absurd hx2 (by simp))
          | (refine ⟨_, Or.inr rfl, ?_, rfl⟩
             by_cases h0 : prot = 0 <;> simp [h0])
      · by_cases hle : prot ≤ 6
        · rw [if_neg hsel, if_pos hle] at h
          rw [← Except.ok.inj h]
          clear h hcap hprot
          refine ⟨?_, ?_, ?_, ?_, ?_, ?_⟩ <;>
            simp [selFastOp, selFastMsg] <;>
            first
            | exact hf1
            | exact hm1
            | (rw [hf2]
               constructor
               · rintro ⟨p, hp, hx⟩
                 exact ⟨p, Or.inl hp, hx⟩
               · rintro ⟨p, hp | rfl, hx1, hx2⟩
                 · exact ⟨p, hp, hx1, hx2⟩
                 · exact absurd hx2 (by simp))
            | (rw [hm2]
               constructor
               · rintro ⟨p, hp, hx⟩
                 exact ⟨p, Or.inl hp, hx⟩
               · rintro ⟨p, hp | rfl, hx1, hx2⟩
                 · exact ⟨p, hp, hx1, hx2⟩
                 · exact absurd hx2 (by simp))
        · rw [if_neg hsel, if_neg hle] at h
          cases hlast : st.lastDesc with
          | none =>
            rw [hlast] at h
            exact Except.noConfusion h
          | some d =>
            rw [hlast] at h
            rw [← Except.ok.inj h]
            clear h hcap hprot
            refine ⟨?_, ?_, ?_, ?_, ?_, ?_⟩ <;>
              simp [selFastOp, selFastMsg] <;>
              first
              | exact hf1
              | exact hm1
              | (constructor
                 · intro hx
                   obtain ⟨p, hp, hsp⟩ := hf2.mp hx
                   exact ⟨p, Or.inl hp, hsp⟩
                 · rintro ⟨p, hp | rfl, hx1, hx2⟩
                   · exact hf2.mpr ⟨p, hp, hx1, hx2⟩
                   · exact hf3 p hlast ⟨hx1, hx2⟩)
              | (constructor
                 · intro hx
                   obtain ⟨p, hp, hsp⟩ := hm2.mp hx
                   exact ⟨p, Or.inl hp, hsp⟩
                 · rintro ⟨p, hp | rfl, hx1, hx2⟩
                   · exact hm2.mpr ⟨p, hp, hx1, hx2⟩
                   · exact hm3 p hlast ⟨hx1, hx2⟩)
              | (intro hx1 hx2
                 exact hf3 d hlast ⟨hx1, hx2⟩)
              | (intro hx1 hx2
                 exact hm3 d hlast ⟨hx1, hx2⟩)

theorem except_ok_of_bind {ε α β : Type} {x : Except ε α} {f : α → Except ε β} {b : β}
    (h : x >>= f = .ok b) : ∃ a, x = .ok a ∧ f a = .ok b := by
  cases x with
  | error e =>
    rw [except_bind_error] at h
    exact Except.noConfusion h
  | ok a =>
    rw [except_bind_ok] at h
    exact ⟨a, rfl, h⟩

theorem protFold_inv (ba : List Nat) (l : List Nat) :
    ∀ (st st' : ProtSt),
      l.foldlM (fun s _ => protocolStep ba s) st = .ok st' → protInv st → protInv st' := by
  induction l with
  | nil =>
    intro st st' h hi
    rw [List.foldlM_nil] at h
    rw [← Except.ok.inj h]
    exact hi
  | cons a t ih =>
    intro st st' h hi
    rw [List.foldlM_cons] at h
    obtain ⟨st1, hs, h⟩ := except_ok_of_bind h
    exact ih st1 st' h (protocolStep_inv ba st st1 hs hi)

/-! ## Claim C4 -/

/-- C4: in a successfully parsed relay definition, the Fast-Operate
configuration command field holds `A5 CE` exactly when some protocol
record of family SEL_STANDARD or SEL_LMD has its Fast-Operate capability
bit (bit 0 of the record's low byte, surfaced as `fast_op_en`) set, and
otherwise keeps its initial empty value; likewise the Fast-Message field
holds `A5 46` exactly when some such record has bit 1 set. -/
theorem C4_relay_definition_commands (data : List Nat) (st : RelayDef)
    (h : relay_definition_block data = .ok st) :
    ((∃ p ∈ st.protocols, selFastOp p) ↔ st.fopcommandinfo = some FO_CONFIG_BLOCK) ∧
    ((¬ ∃ p ∈ st.protocols, selFastOp p) ↔ st.fopcommandinfo = none) ∧
    ((∃ p ∈ st.protocols, selFastMsg p) ↔ st.fmsgcommandinfo = some FAST_MSG_CONFIG_BLOCK) ∧
    ((¬ ∃ p ∈ st.protocols, selFastMsg p) ↔ st.fmsgcommandinfo = none) := by
  unfold relay_definition_block at h
  cases hc : cast_bytearray data with
  | error e =>
    simp only [hc] at h
    exact Except.noConfusion h
  | ok ba =>
    simp only [hc] at h
    cases hb : relay_definition_body ba with
    | error e =>
      rw [hb] at h
      cases e <;> exact Except.noConfusion h
    | ok r =>
      simp only [hb] at h
      rw [← Except.ok.inj h]
      unfold relay_definition_body at hb
      obtain ⟨l, h2, hb⟩ := except_ok_of_bind hb
      obtain ⟨nprot, h3, hb⟩ := except_ok_of_bind hb
      obtain ⟨fmsup, h4, hb⟩ := except_ok_of_bind hb
      obtain ⟨sfsup, h5, hb⟩ := except_ok_of_bind hb
      obtain ⟨fmtype, h6, hb⟩ := except_ok_of_bind hb
      obtain ⟨pst, h7, hb⟩ := except_ok_of_bind hb
      have hinv : protInv pst := by
        refine protFold_inv ba (List.range nprot) _ pst h7
          ⟨Or.inl rfl, by simp [emptyCommandInfo], ?_, Or.inl rfl,
            by simp [emptyCommandInfo], ?_⟩
        · intro d hd
          exact absurd hd (by simp)
        · intro d hd
          exact absurd hd (by simp)
      obtain ⟨i1, i2, i3, i4, i5, i6⟩ := hinv
      rw [← Except.ok.inj hb]
      refine ⟨i2.symm, ?_, i5.symm, ?_⟩
      · constructor
        · intro hne
          rcases i1 with hnone | hsome
          · exact hnone
          · exact absurd (i2.mp hsome) hne
        · intro hnone hex
          rw [i2.mpr hex] at hnone
          exact Option.noConfusion hnone
      · constructor
        · intro hne
          rcases i4 with hnone | hsome
          · exact hnone
          · exact absurd (i5.mp hsome) hne
        · intro hnone hex
          rw [i5.mpr hex] at hnone
          exact Option.noConfusion hnone

/-- Witness for C4 at the concrete frame `relayDefFrameS2`, whose single
protocol record is SEL_STANDARD with the Fast-Operate bit set and the
Fast-Message bit clear: the parse adopts `A5 CE` and leaves the
Fast-Message field empty, via `C4_relay_definition_commands`. -/
theorem C4_relay_definition_commands_witness :
    ((∃ p ∈ [ProtoDesc.mk "SEL_STANDARD" (some true) (some false)], selFastOp p) ↔
      (some FO_CONFIG_BLOCK : Option (List Nat)) = some FO_CONFIG_BLOCK) ∧
    ((¬ ∃ p ∈ [ProtoDesc.mk "SEL_STANDARD" (some true) (some false)], selFastOp p) ↔
      (some FO_CONFIG_BLOCK : Option (List Nat)) = none) ∧
    ((∃ p ∈ [ProtoDesc.mk "SEL_STANDARD" (some true) (some false)], selFastMsg p) ↔
      (none : Option (List Nat)) = some FAST_MSG_CONFIG_BLOCK) ∧
    ((¬ ∃ p ∈ [ProtoDesc.mk "SEL_STANDARD" (some true) (some false)], selFastMsg p) ↔
      (none : Option (List Nat)) = none) :=
  C4_relay_definition_commands relayDefFrameS2
    (RelayDef.mk [165, 192] 14 1 1 0
      [FMCommandInfo.mk [165, 193] [165, 209]] 0 []
      [ProtoDesc.mk "SEL_STANDARD" (some true) (some false)]
      (some FO_CONFIG_BLOCK) none)
    (by decide)

/-! ## Claim C8 -/

theorem lookup_map_replace {α : Type} (k' k : String) (v : α) (hne : ¬ k = k') :
    ∀ (m : List (String × α)),
      (m.map (fun p => if p.1 = k' then (k', v) else p)).lookup k = m.lookup k := by
  intro m
  induction m with
  | nil => rfl
  | cons p t ih =>
    obtain ⟨pk, pv⟩ := p
    by_cases hpk : pk = k'
    · subst hpk
      simp only [List.map_cons, if_true, eq_self_iff_true]
      simp only [List.lookup, beq_eq_false_iff_ne.mpr hne]
      exact ih
    · simp only [List.map_cons]
      rw [if_neg hpk]
      simp only [List.lookup]
      cases hb : (k == pk) with
      | true => simp only [hb]
      | false => simp only [hb]; exact ih

theorem lookup_append_single {α : Type} (k' k : String) (v : α) (hne : ¬ k = k') :
    ∀ (m : List (String × α)), (m ++ [(k', v)]).lookup k = m.lookup k := by
  intro m
  induction m with
  | nil =>
    simp only [List.nil_append, List.lookup, beq_eq_false_iff_ne.mpr hne]
  | cons p t ih =>
    obtain ⟨pk, pv⟩ := p
    simp only [List.cons_append, List.lookup]
    cases hb : (k == pk) with
    | true => simp only [hb]
    | false => simp only [hb]; exact ih

theorem dictSet_lookup_ne {α : Type} (m : List (String × α)) (k' k : String) (v : α)
    (hne : ¬ k = k') : (dictSet m k' v).lookup k = m.lookup k := by
  unfold dictSet
  by_cases hany : m.any (fun p => p.1 = k') = true
  · rw [if_pos hany]
    exact lookup_map_replace k' k v hne m
  · rw [if_neg hany]
    exact lookup_append_single k' k v hne m

theorem idProcessKey_lookup_ne (s : String) (r : List (String × String))
    (k : String) (g : G1Kind) (hk : ¬ "FID" = k) :
    (idProcessKey s r k g).lookup "FID" = r.lookup "FID" := by
  unfold idProcessKey
  cases hrow : findIdRow k g s with
  | none => rfl
  | some p =>
    obtain ⟨v, cs⟩ := p
    simp only []
    cases hhex : bytes_fromhex cs with
    | none => simp only [hhex]
    | some bs =>
      simp only [hhex]
      by_cases heq : int_from_bytes_be_signed bs =
          (eval_checksum_str ("\"" ++ k ++ "=" ++ v ++ "\",") : Int)
      · rw [if_neg (not_not_intro heq)]
        exact dictSet_lookup_ne r k "FID" v hk
      · rw [if_pos heq]

/-- C8 amended: for each recognized ID-block row (stated for the FID
pattern; `v`, `cs` are the two regex captures), `relay_id_block` stores
the extracted value exactly when `HHHH` parsed as a big-endian signed
integer equals the *unconstrained* sum of the bytes of the literal
`"FID=value",` (no mod 256 is applied); on a mismatch the internally
raised `ChecksumFail` is swallowed by the loop's blanket `except
Exception` handler and the call returns normally without the key. -/
theorem C8_id_checksum_amended (s : String) (v cs : String) (bs : List Nat)
    (hrow : findIdRow "FID" .selAny s = some (v, cs))
    (hhex : bytes_fromhex cs = some bs) :
    (relay_id_block s).lookup "FID" =
      (if int_from_bytes_be_signed bs =
          (eval_checksum_str ("\"" ++ "FID" ++ "=" ++ v ++ "\",") : Int)
       then some v else none) := by
  unfold relay_id_block RE_ID_BLOCKS
  simp only [List.foldl_cons, List.foldl_nil]
  rw [idProcessKey_lookup_ne _ _ _ _ (by decide)]
  rw [idProcessKey_lookup_ne _ _ _ _ (by decide)]
  rw [idProcessKey_lookup_ne _ _ _ _ (by decide)]
  rw [idProcessKey_lookup_ne _ _ _ _ (by decide)]
  rw [idProcessKey_lookup_ne _ _ _ _ (by decide)]
  rw [idProcessKey_lookup_ne _ _ _ _ (by decide)]
  rw [idProcessKey_lookup_ne _ _ _ _ (by decide)]
  unfold idProcessKey
  simp only [hrow, hhex]
  by_cases heq : int_from_bytes_be_signed bs =
      (eval_checksum_str ("\"" ++ "FID" ++ "=" ++ v ++ "\",") : Int)
  · rw [if_neg (not_not_intro heq), if_pos heq]
    simp [dictSet, List.lookup]
  · rw [if_pos heq, if_neg heq]
    rfl

/-- Counterexample to C8: for the S4 row with value `SEL-XXX`, the sum of
the bytes of `\"FID=SEL-XXX\",` is 921 = 0x399, i.e. 0x99 mod 256.  The
claim says the row is stored when `HHHH` equals the checksum *mod 256*
(`\"0099\"`) and that the call fails with `ChecksumFail` otherwise; the
source instead compares the *unconstrained* sum (storing only for
`\"0399\"`) and swallows the mismatch (the `0099` call returns an empty
result, with no exception). -/
theorem C8_id_checksum_counterexample :
    relay_id_block "\"FID=SEL-XXX\",\"0099\"" = [] ∧
    relay_id_block "\"FID=SEL-XXX\",\"0399\"" = [("FID", "SEL-XXX")] ∧
    eval_checksum_str "\"FID=SEL-XXX\"," % 256 = 0x99 ∧
    eval_checksum_str "\"FID=SEL-XXX\"," = 0x399 := by
  decide

/-- Witness for C8's amended statement at the row
`\"FID=SEL-XXX\",\"0399\"`, whose checksum field equals the full
(unconstrained) sum 0x399: the value is stored. -/
theorem C8_id_checksum_amended_witness :
    (relay_id_block "\"FID=SEL-XXX\",\"0399\"").lookup "FID" = some "SEL-XXX" := by
  have h := C8_id_checksum_amended "\"FID=SEL-XXX\",\"0399\"" "SEL-XXX" "0399"
    [3, 153] (by decide) (by decide)
  rw [h]
  decide
